import Mathlib

/-!
Verification development for `pygubudesigner/propertieseditor.py`.

The file embeds the `PropertiesEditor` class as pure Lean functions over an
explicit state.  Python dictionaries are modelled as insertion-ordered
association lists (`List (String × α)`); dictionary assignment keeps the
position of an existing key and appends a fresh key at the end, exactly as
CPython does.  Property values, defaults and editor parameters are strings;
the Python truthiness test `not value` on a string is `value = ""`.

The static metadata tables of the external `properties` module
(`REQUIRED_OPTIONS`, `TK_WIDGET_OPTIONS`, `CUSTOM_OPTIONS`) live inside the
editor state because `update_editor` mutates them through shared `params`
sub-dictionaries; the four group name lists
(`WIDGET_REQUIRED_OPTIONS`, …) are never mutated and are passed separately.
-/

namespace PropEd

/-- First-match lookup in an insertion-ordered association list
(Python `d[k]` / `d.get(k)`). -/
def dlookup (d : List (String × α)) (k : String) : Option α :=
  match d with
  | [] => none
  | (k', v) :: rest => if k' = k then some v else dlookup rest k

/-- Python dictionary assignment `d[k] = v`: replaces in place when the key
exists (keeping its position) and appends at the end otherwise. -/
def dinsert (d : List (String × α)) (k : String) (v : α) : List (String × α) :=
  match d with
  | [] => [(k, v)]
  | (k', v') :: rest =>
      if k' = k then (k, v) :: rest else (k', v') :: dinsert rest k v

/-- A help entry of a property descriptor: either a plain string or a
per-class-prefix mapping (a dict iterated in insertion order). -/
inductive HelpVal where
  | str (s : String)
  | table (m : List (String × String))
deriving DecidableEq, Repr

/-- A class-specific override sub-dictionary of a property descriptor
(the value stored under a class-name key). -/
structure Override where
  params : Option (List (String × String))
  default : Option String
  help : Option HelpVal
deriving DecidableEq, Repr

/-- A property descriptor: one entry of `REQUIRED_OPTIONS`,
`TK_WIDGET_OPTIONS` or `CUSTOM_OPTIONS`.  `overrides` holds the
class-name-keyed override sub-dictionaries. -/
structure PropDescr where
  editor : Option String
  params : Option (List (String × String))
  default : Option String
  help : Option HelpVal
  overrides : List (String × Override)
deriving DecidableEq, Repr

/-- The external widget descriptor: class name, starting identifier and the
per-property value getter `widget_property(name)`.  `wid` is the object
identity, used to record which descriptor a setter call targets. -/
structure WidgetDescr where
  wid : Nat
  classname : String
  start_id : String
  props : String → String

/-- A property editor widget.  `eid`, `pname` and `isNamedID` are fixed when
the editor is created (`_create_editor`); `params` is the configuration last
passed to `editor.parameters(**params)` and `value` the value last written
by `editor.edit(v)` or by the user. -/
structure Editor where
  eid : Nat
  pname : String
  isNamedID : Bool
  params : List (String × String)
  value : String
deriving DecidableEq, Repr

/-- A property label together with its tooltip text. -/
structure PLabel where
  text : String
  tooltipText : Option HelpVal
deriving DecidableEq, Repr

/-- One entry of the property bag: the label/editor pair and the grid
visibility of each (`grid()` / `grid_remove()`). -/
structure PropPair where
  label : PLabel
  editor : Editor
  labelVisible : Bool
  editorVisible : Bool
deriving DecidableEq, Repr

/-- Where the `params` dictionary obtained by
`params = pdescr.get("params", {})` lives: the generic descriptor's shared
dict, a class-specific override's shared dict, or a fresh `{}`.
Assignments into `params` mutate that location. -/
inductive ParamsLoc where
  | generic
  | overrideLoc (classname : String)
  | fresh
deriving DecidableEq, Repr

/-- The `params` dictionary selected by `update_editor` after the
class-specific merge, together with its location. -/
def selectParams (pd : PropDescr) (classname : String) :
    List (String × String) × ParamsLoc :=
  match dlookup pd.overrides classname with
  | some ov =>
      match ov.params with
      | some p => (p, .overrideLoc classname)
      | none =>
          match pd.params with
          | some p => (p, .generic)
          | none => ([], .fresh)
  | none =>
      match pd.params with
      | some p => (p, .generic)
      | none => ([], .fresh)

/-- The merged `help` entry after `pdescr = dict(pdescr, **pdescr[classname])`:
the override's value when the override sub-dict carries a `help` key, else the
generic one. -/
def mergedHelp (pd : PropDescr) (classname : String) : Option HelpVal :=
  match dlookup pd.overrides classname with
  | some ov => ov.help.orElse fun _ => pd.help
  | none => pd.help

/-- The merged `default` entry, same merge rule as `mergedHelp`. -/
def mergedDefault (pd : PropDescr) (classname : String) : Option String :=
  match dlookup pd.overrides classname with
  | some ov => ov.default.orElse fun _ => pd.default
  | none => pd.default

/-- Python's `s.startswith(pre)`: `pre` is a character prefix of `s`. -/
def py_startswith (s pre : String) : Bool := pre.data.isPrefixOf s.data

/-- The help-resolution loop of `update_editor`: iterate the per-class
mapping in insertion order, return the value of the first key that is a
prefix of the class name, and `""` when no key matches. -/
def resolveHelp (m : List (String × String)) (classname : String) : String :=
  match m with
  | [] => ""
  | (k, v) :: rest => if py_startswith classname k then v else resolveHelp rest classname

/-- Tooltip text set by `label.tooltip.text = help`: a per-class table is
replaced by its resolved string, anything else is passed through. -/
def resolveTooltip (h : Option HelpVal) (classname : String) : Option HelpVal :=
  match h with
  | some (.table m) => some (.str (resolveHelp m classname))
  | other => other

/-- Write the possibly mutated `params` dictionary back into the descriptor
at the location it was aliased from; a fresh `{}` leaves the descriptor
unchanged. -/
def writeBackParams (pd : PropDescr) (loc : ParamsLoc)
    (ps : List (String × String)) : PropDescr :=
  match loc with
  | .fresh => pd
  | .generic => { pd with params := some ps }
  | .overrideLoc c =>
      { pd with
        overrides :=
          match dlookup pd.overrides c with
          | some ov => dinsert pd.overrides c { ov with params := some ps }
          | none => pd.overrides }

/-- Result of `update_editor`: the updated label (tooltip), editor
(parameters and displayed value) and the post-call state of the shared
static descriptor. -/
structure UpdResult where
  label : PLabel
  editor : Editor
  propdescr : PropDescr
deriving Repr

/-- Embeds `PropertiesEditor.update_editor` (lines 134-179): shallow-copies the
descriptor, merges a class-specific override, preserves the generic
`params["mode"]` when the merged params omit it, injects the `id`
placeholder for `NamedIDPropertyEditor`, configures the editor, resolves
the tooltip, and writes the current-or-default value into the editor.
Assignments into `params` go through to the shared descriptor. -/
def update_editor (label : PLabel) (editor : Editor) (wdescr : WidgetDescr)
    (pname : String) (propdescr : PropDescr) : UpdResult :=
  let classname := wdescr.classname
  -- default_mode = pdescr["params"].get("mode", None) if "params" in pdescr
  let default_mode : Option String :=
    match propdescr.params with
    | some ps => dlookup ps "mode"
    | none => none
  let sel := selectParams propdescr classname
  let params0 := sel.1
  -- if default_mode is not None and "mode" not in params: params["mode"] = default_mode
  let params1 :=
    match default_mode with
    | some m => if (dlookup params0 "mode").isNone then dinsert params0 "mode" m else params0
    | none => params0
  -- if pname == "id" and isinstance(editor, NamedIDPropertyEditor):
  --     params["placeholder"] = wdescr.start_id
  let params2 :=
    if pname = "id" ∧ editor.isNamedID then
      dinsert params1 "placeholder" wdescr.start_id
    else params1
  let editor1 : Editor := { editor with params := params2 }
  let label1 : PLabel :=
    { label with tooltipText := resolveTooltip (mergedHelp propdescr classname) classname }
  -- default = pdescr.get("default", ""); value = wdescr.widget_property(pname)
  -- if not value and default: value = default
  let default := (mergedDefault propdescr classname).getD ""
  let value0 := wdescr.props pname
  let value := if value0 = "" ∧ default ≠ "" then default else value0
  let editor2 : Editor := { editor1 with value := value }
  ⟨label1, editor2, writeBackParams propdescr sel.2 params2⟩

/-- The four static group name lists of the external `properties` module:
`WIDGET_REQUIRED_OPTIONS`, `WIDGET_STANDARD_OPTIONS`,
`WIDGET_SPECIFIC_OPTIONS`, `WIDGET_CUSTOM_OPTIONS`. -/
structure GroupLists where
  required : List String
  standard : List String
  specific : List String
  custom : List String
deriving DecidableEq, Repr

/-- A class registry entry: `CLASS_MAP[wclass].builder`, exposing the three
per-group applicable-property-name lists read via `getattr`. -/
structure ClassDescr where
  OPTIONS_STANDARD : List String
  OPTIONS_SPECIFIC : List String
  OPTIONS_CUSTOM : List String
deriving DecidableEq, Repr

/-- The class registry `CLASS_MAP` (class name → builder description). -/
abbrev ClassMap := List (String × ClassDescr)

/-- The state of a `PropertiesEditor` instance.  `_current` and `current`
are two distinct attributes: `edit` and `_on_property_changed` use
`_current`, while `hide_all` assigns `current`.  The three descriptor
tables are the (mutable, shared) static tables of the `properties`
module. -/
structure PEState where
  _current : Option WidgetDescr
  current : Option WidgetDescr
  propbag : List (String × PropPair)
  required_descr : List (String × PropDescr)
  tk_descr : List (String × PropDescr)
  custom_descr : List (String × PropDescr)
deriving Inhabited

/-- Models `getattr(class_descr, attrname)` for the three group attribute names
used by `edit`; the required group passes `None` and never reaches the
lookup because the `or` short-circuits. -/
def getOptions (cd : ClassDescr) (attr : Option String) : List String :=
  match attr with
  | some "OPTIONS_STANDARD" => cd.OPTIONS_STANDARD
  | some "OPTIONS_SPECIFIC" => cd.OPTIONS_SPECIFIC
  | some "OPTIONS_CUSTOM" => cd.OPTIONS_CUSTOM
  | _ => []

/-- The inner loop of `edit` for one group: for each property name, fetch
its descriptor and its label/editor pair, then either update and show the
pair or hide it.  A missing dictionary key raises (`.error`), as in
Python. -/
def editGroup (cd : ClassDescr) (wdescr : WidgetDescr)
    (gcode : String) (attr : Option String) (names : List String)
    (table : List (String × PropDescr)) (bag : List (String × PropPair)) :
    Except String (List (String × PropDescr) × List (String × PropPair)) :=
  match names with
  | [] => .ok (table, bag)
  | name :: rest =>
      match dlookup table name with
      | none => .error "KeyError: gproperties[name]"
      | some propdescr =>
          match dlookup bag (gcode ++ name) with
          | none => .error "KeyError: self._propbag[gcode + name]"
          | some pair =>
              if gcode = "00" ∨ name ∈ getOptions cd attr then
                let r := update_editor pair.label pair.editor wdescr name propdescr
                let pair' : PropPair :=
                  ⟨r.label, r.editor, true, true⟩
                editGroup cd wdescr gcode attr rest
                  (dinsert table name r.propdescr)
                  (dinsert bag (gcode ++ name) pair')
              else
                let pair' : PropPair :=
                  { pair with labelVisible := false, editorVisible := false }
                editGroup cd wdescr gcode attr rest table
                  (dinsert bag (gcode ++ name) pair')

/-- Embeds `PropertiesEditor.edit` (lines 181-225): store the new selection in
`_current`, look the class up in `CLASS_MAP` (a missing class raises), then
walk the four groups.  Required properties are always shown; the other
groups show a property only when its name is in the class's declared
list. -/
def edit (gl : GroupLists) (cmap : ClassMap) (s : PEState)
    (wdescr : WidgetDescr) : Except String PEState :=
  let s := { s with _current := some wdescr }
  match dlookup cmap wdescr.classname with
  | none => .error "KeyError: CLASS_MAP[wclass]"
  | some cd =>
    match editGroup cd wdescr "00" none gl.required s.required_descr s.propbag with
    | .error e => .error e
    | .ok (reqT, bag0) =>
      match editGroup cd wdescr "01" (some "OPTIONS_STANDARD") gl.standard
          s.tk_descr bag0 with
      | .error e => .error e
      | .ok (tkT1, bag1) =>
        match editGroup cd wdescr "02" (some "OPTIONS_SPECIFIC") gl.specific
            tkT1 bag1 with
        | .error e => .error e
        | .ok (tkT2, bag2) =>
          match editGroup cd wdescr "03" (some "OPTIONS_CUSTOM") gl.custom
              s.custom_descr bag2 with
          | .error e => .error e
          | .ok (cusT, bag3) =>
            .ok { s with propbag := bag3, required_descr := reqT,
                         tk_descr := tkT2, custom_descr := cusT }

/-- Models `label.grid_remove(); widget.grid_remove()` on one pair. -/
def hidePair (p : PropPair) : PropPair :=
  { p with labelVisible := false, editorVisible := false }

/-- Embeds `PropertiesEditor.hide_all` (lines 227-233): assigns `self.current`
(not `self._current`) to `None` and removes every label/editor pair from
the grid. -/
def hide_all (s : PEState) : PEState :=
  { s with
    current := none
    propbag := s.propbag.map fun kp => (kp.1, hidePair kp.2) }

/-- A recorded call to `wdescr.widget_property(name, value)`: the setter of
the widget descriptor with identity `wid`. -/
structure SetterCall where
  wid : Nat
  pname : String
  value : String
deriving DecidableEq, Repr

/-- The user changes the editor registered under `key` to `v` and the
editor fires `<<PropertyChanged>>`.  The bound callback
(`_create_editor` / `_on_property_changed`, lines 122-132) reads
`editor.value` and calls `self._current.widget_property(name, editor.value)`
once; with `_current = None` the attribute access raises. -/
def fire_property_changed (s : PEState) (key : String) (v : String) :
    Except String (PEState × List SetterCall) :=
  match dlookup s.propbag key with
  | none => .error "no such editor"
  | some pair =>
      let editor := { pair.editor with value := v }
      let s := { s with propbag := dinsert s.propbag key { pair with editor := editor } }
      match s._current with
      | none => .error "AttributeError: NoneType has no attribute widget_property"
      | some cur => .ok (s, [⟨cur.wid, editor.pname, v⟩])

/-- One group of `_create_properties` (lines 91-112): create a label (text
`name ++ ":"`, tooltip `"?"`) and an editor for each name in the group
list and register the pair under `gcode + name`.  `isNamedOf` abstracts
which editor kinds `create_editor` realises as `NamedIDPropertyEditor`;
`eid` numbers the created editor objects.  Pairs are gridded (visible) at
creation. -/
def create_group (gcode : String) (names : List String)
    (table : List (String × PropDescr)) (isNamedOf : Option String → Bool)
    (eid : Nat) (bag : List (String × PropPair)) :
    Except String (List (String × PropPair) × Nat) :=
  match names with
  | [] => .ok (bag, eid)
  | name :: rest =>
      match dlookup table name with
      | none => .error "KeyError: propdescr[name]"
      | some kwdata =>
          let ed : Editor := ⟨eid, name, isNamedOf kwdata.editor, [], ""⟩
          let lab : PLabel := ⟨name ++ ":", some (.str "?")⟩
          create_group gcode rest table isNamedOf (eid + 1)
            (dinsert bag (gcode ++ name) ⟨lab, ed, true, true⟩)

/-- Embeds `PropertiesEditor.__init__` together with `_create_properties`: build
the property bag group by group, then `hide_all`.  `_current` starts as
`None`. -/
def pe_init (gl : GroupLists) (req tk cust : List (String × PropDescr))
    (isNamedOf : Option String → Bool) : Except String PEState :=
  match create_group "00" gl.required req isNamedOf 0 [] with
  | .error e => .error e
  | .ok (bag0, e0) =>
    match create_group "01" gl.standard tk isNamedOf e0 bag0 with
    | .error e => .error e
    | .ok (bag1, e1) =>
      match create_group "02" gl.specific tk isNamedOf e1 bag1 with
      | .error e => .error e
      | .ok (bag2, e2) =>
        match create_group "03" gl.custom cust isNamedOf e2 bag2 with
        | .error e => .error e
        | .ok (bag3, _) =>
          .ok (hide_all
            { _current := none, current := none, propbag := bag3,
              required_descr := req, tk_descr := tk, custom_descr := cust })

/-- The list of property-bag keys `gcode + name` generated by
`_create_properties` from the four group lists, in creation order. -/
def groupKeys (gl : GroupLists) : List String :=
  gl.required.map (fun n => "00" ++ n) ++ gl.standard.map (fun n => "01" ++ n) ++
  gl.specific.map (fun n => "02" ++ n) ++ gl.custom.map (fun n => "03" ++ n)

/-- The construction-time identity of an editor: its object identity, bound
property name and concrete class.  `edit`, `hide_all` and the change
callback reconfigure editors but never replace them. -/
def editorSig (p : PropPair) : Nat × String × Bool :=
  (p.editor.eid, p.editor.pname, p.editor.isNamedID)

/-- The property bag's keys paired with each editor's identity. -/
def bagShape (bag : List (String × PropPair)) : List (String × Nat × String × Bool) :=
  bag.map fun kp => (kp.1, editorSig kp.2)

/-! ### A small concrete configuration, used to instantiate theorems -/

/-- A per-class help mapping with two prefix keys. -/
def helpM : List (String × String) := [("tk.", "tk help"), ("ttk.", "ttk help")]

/-- A standard property with generic params carrying a `mode`, a default, a
per-class help table, and a `ttk.Button` override whose params omit
`mode`. -/
def pdText : PropDescr :=
  ⟨some "text", some [("mode", "normal")], some "hello", some (.table helpM),
   [("ttk.Button", ⟨some [("x", "1")], none, none⟩)]⟩

/-- The required `id` property, realised by a `NamedIDPropertyEditor`. -/
def pdId : PropDescr := ⟨some "namedid", none, none, none, []⟩

/-- A standard property with no default and no overrides. -/
def pdWidth : PropDescr := ⟨some "num", some [("min", "0")], none, none, []⟩

/-- A specific property. -/
def pdCommand : PropDescr := ⟨some "cmd", none, none, none, []⟩

/-- A custom property. -/
def pdMyopt : PropDescr := ⟨some "text", none, none, none, []⟩

/-- Example group lists. -/
def glEx : GroupLists := ⟨["id"], ["text", "width"], ["command"], ["myopt"]⟩

/-- Example `REQUIRED_OPTIONS`. -/
def reqTEx : List (String × PropDescr) := [("id", pdId)]

/-- Example `TK_WIDGET_OPTIONS`. -/
def tkTEx : List (String × PropDescr) :=
  [("text", pdText), ("width", pdWidth), ("command", pdCommand)]

/-- Example `CUSTOM_OPTIONS`. -/
def custTEx : List (String × PropDescr) := [("myopt", pdMyopt)]

/-- Example `CLASS_MAP` with two registered classes. -/
def cmapEx : ClassMap :=
  [("ttk.Button", ⟨["text"], ["command"], []⟩),
   ("tk.Label", ⟨["width"], [], ["myopt"]⟩)]

/-- Example widget of class `ttk.Button`. -/
def wBtn : WidgetDescr :=
  ⟨1, "ttk.Button", "button1", fun p => if p = "width" then "10" else ""⟩

/-- Example widget of class `tk.Label`. -/
def wLbl : WidgetDescr := ⟨2, "tk.Label", "label1", fun _ => ""⟩

/-- Here `create_editor` realises editor kind `"namedid"` as
`NamedIDPropertyEditor`. -/
def isNamedEx : Option String → Bool := fun t => t = some "namedid"

/-- The constructed panel state for the example configuration. -/
def sEx0 : PEState :=
  match pe_init glEx reqTEx tkTEx custTEx isNamedEx with
  | .ok s => s
  | .error _ => default

/-- The state after `edit(wBtn)`. -/
def sExB : PEState :=
  match edit glEx cmapEx sEx0 wBtn with
  | .ok s => s
  | .error _ => default

/-- The state after `edit(wBtn)` followed by `edit(wLbl)`. -/
def sExL : PEState :=
  match edit glEx cmapEx sExB wLbl with
  | .ok s => s
  | .error _ => default

/-- Value of `pdText` after the `mode` leak: the `ttk.Button` override's shared
params dictionary has gained `("mode", "normal")`. -/
def pdTextMut : PropDescr :=
  ⟨some "text", some [("mode", "normal")], some "hello", some (.table helpM),
   [("ttk.Button", ⟨some [("x", "1"), ("mode", "normal")], none, none⟩)]⟩

/-! ### Dictionary lemmas -/

theorem dlookup_dinsert_self (d : List (String × α)) (k : String) (v : α) :
    dlookup (dinsert d k v) k = some v := by
  induction d with
  | nil => simp [dinsert, dlookup]
  | cons p rest ih =>
      obtain ⟨k', v'⟩ := p
      by_cases h : k' = k <;> simp [dinsert, dlookup, h, ih]

theorem dlookup_dinsert_ne (d : List (String × α)) (k k' : String) (v : α)
    (h : k ≠ k') : dlookup (dinsert d k v) k' = dlookup d k' := by
  have h' : ¬(k' = k) := fun e => h e.symm
  induction d with
  | nil => simp [dinsert, dlookup, h]
  | cons p rest ih =>
      obtain ⟨k₀, v₀⟩ := p
      by_cases h0 : k₀ = k
      · subst h0
        simp [dinsert, dlookup, h]
      · by_cases h1 : k₀ = k' <;> simp [dinsert, dlookup, h0, h1, h', ih]

theorem dlookup_map_value (l : List (String × α)) (f : α → β) (k : String) :
    dlookup (l.map fun kp => (kp.1, f kp.2)) k = (dlookup l k).map f := by
  induction l with
  | nil => simp [dlookup]
  | cons p rest ih =>
      obtain ⟨k', v'⟩ := p
      by_cases h : k' = k <;> simp [dlookup, h, ih]

/-! ### Key shape lemmas: `gcode + name` concatenation -/

theorem gkey_inj (g a b : String) (h : g ++ a = g ++ b) : a = b := by
  have hd := congrArg String.data h
  rw [String.data_append, String.data_append] at hd
  exact String.ext (List.append_cancel_left hd)

theorem gkey_ne_of_code_ne (g₁ g₂ a b : String)
    (hlen : g₁.data.length = g₂.data.length) (hne : g₁ ≠ g₂) :
    g₁ ++ a ≠ g₂ ++ b := by
  intro h
  have hd := congrArg String.data h
  rw [String.data_append, String.data_append] at hd
  exact hne (String.ext (List.append_inj hd hlen).1)

/-! ### Shape preservation lemmas -/

theorem bagShape_dinsert (bag : List (String × PropPair)) (k : String)
    (pair pair' : PropPair) (h : dlookup bag k = some pair)
    (hsig : editorSig pair' = editorSig pair) :
    bagShape (dinsert bag k pair') = bagShape bag := by
  induction bag with
  | nil => simp [dlookup] at h
  | cons p rest ih =>
      obtain ⟨k₀, v₀⟩ := p
      by_cases h0 : k₀ = k
      · subst h0
        simp [dlookup] at h
        simp [dinsert, bagShape, hsig, h]
      · simp [dlookup, h0] at h
        simp [dinsert, bagShape, h0] at ih ⊢
        exact ih h

theorem update_editor_editorSig (label : PLabel) (editor : Editor)
    (wdescr : WidgetDescr) (pname : String) (pd : PropDescr) :
    (update_editor label editor wdescr pname pd).editor.eid = editor.eid ∧
    (update_editor label editor wdescr pname pd).editor.pname = editor.pname ∧
    (update_editor label editor wdescr pname pd).editor.isNamedID = editor.isNamedID := by
  simp [update_editor]

/-! ### Claim theorems -/

/-- C2: for every shown property, the value handed to the editor's
value-set method (`editor.edit(value)`) is the widget's current property
value when it is non-empty, else the (merged) descriptor default, else the
empty string. -/
theorem shown_value_current_else_default_else_empty
    (label : PLabel) (editor : Editor) (wdescr : WidgetDescr)
    (pname : String) (pd : PropDescr) :
    (update_editor label editor wdescr pname pd).editor.value =
      (if wdescr.props pname ≠ "" then wdescr.props pname
       else if (mergedDefault pd wdescr.classname).getD "" ≠ "" then
         (mergedDefault pd wdescr.classname).getD ""
       else "") := by
  by_cases h : wdescr.props pname = "" <;>
    by_cases h2 : (mergedDefault pd wdescr.classname).getD "" = "" <;>
      simp [update_editor, h, h2]

theorem resolveHelp_eq_find (m : List (String × String)) (c : String) :
    resolveHelp m c =
      ((m.find? fun kv => py_startswith c kv.1).map Prod.snd).getD "" := by
  induction m with
  | nil => rfl
  | cons kv rest ih =>
      obtain ⟨k, v⟩ := kv
      by_cases h : py_startswith c k <;> simp [resolveHelp, List.find?_cons, h, ih]

/-- C3: when the (merged) help entry is a per-class mapping, the tooltip
text set on the label is the value of the first key, in insertion order,
that is a prefix of the widget's class name, and `""` when no key is a
prefix. -/
theorem help_tooltip_first_prefix_match
    (label : PLabel) (editor : Editor) (wdescr : WidgetDescr)
    (pname : String) (pd : PropDescr) (m : List (String × String))
    (h : mergedHelp pd wdescr.classname = some (.table m)) :
    (update_editor label editor wdescr pname pd).label.tooltipText =
      some (.str (((m.find? fun kv => py_startswith wdescr.classname kv.1).map
        Prod.snd).getD "")) := by
  simp [update_editor, h, resolveTooltip, resolveHelp_eq_find]

/-- Witness for C3: with `pdText`'s help table and class `ttk.Button`, the
first matching prefix is `"ttk."` and the tooltip becomes `"ttk help"`. -/
theorem help_tooltip_first_prefix_match_witness :
    mergedHelp pdText "ttk.Button" = some (.table helpM) ∧
    (update_editor ⟨"text:", none⟩ ⟨1, "text", false, [], ""⟩ wBtn "text"
      pdText).label.tooltipText = some (.str "ttk help") := by
  refine ⟨by decide, ?_⟩
  have h := help_tooltip_first_prefix_match ⟨"text:", none⟩
    ⟨1, "text", false, [], ""⟩ wBtn "text" pdText helpM (by decide)
  exact h.trans (by decide)

/-- C4: after `hide_all`, every pair registered in the property bag is
hidden, whatever the prior state (in particular after any sequence of
`edit` calls). -/
theorem hide_all_hides_every_pair (s : PEState) (key : String) (pair : PropPair)
    (h : dlookup (hide_all s).propbag key = some pair) :
    pair.labelVisible = false ∧ pair.editorVisible = false := by
  unfold hide_all at h
  rw [dlookup_map_value s.propbag hidePair key] at h
  cases hl : dlookup s.propbag key with
  | none => rw [hl] at h; simp at h
  | some p =>
      rw [hl] at h
      simp only [Option.map_some'] at h
      cases h
      exact ⟨rfl, rfl⟩

/-- Witness for C4: in the example state after `edit(wBtn)`, the shown
`text` property is hidden by `hide_all`. -/
theorem hide_all_hides_every_pair_witness :
    (∃ pair, dlookup (hide_all sExB).propbag "01text" = some pair ∧
      pair.labelVisible = false ∧ pair.editorVisible = false) := by
  cases hl : dlookup (hide_all sExB).propbag "01text" with
  | none => exact absurd hl (by decide)
  | some p => exact ⟨p, rfl, hide_all_hides_every_pair sExB "01text" p hl⟩

/-- C5: a `<<PropertyChanged>>` firing on a registered editor performs
exactly one setter call, `widget_property(name, value)`, on the current
widget descriptor, passing the bound property name and the editor's
current value through unmodified. -/
theorem property_changed_single_setter_call (s : PEState) (key v : String)
    (w : WidgetDescr) (pair : PropPair)
    (hcur : s._current = some w) (hpair : dlookup s.propbag key = some pair) :
    ∃ s', fire_property_changed s key v =
      .ok (s', [⟨w.wid, pair.editor.pname, v⟩]) := by
  unfold fire_property_changed
  rw [hpair]
  simp [hcur]

/-- Witness for C5: firing the `text` editor after `edit(wBtn)` emits one
setter call on `wBtn`. -/
theorem property_changed_single_setter_call_witness :
    sExB._current = some wBtn ∧
    (∃ pair, dlookup sExB.propbag "01text" = some pair ∧
      ∃ s', fire_property_changed sExB "01text" "clicked" =
        .ok (s', [⟨wBtn.wid, pair.editor.pname, "clicked"⟩])) := by
  refine ⟨rfl, ?_⟩
  cases hl : dlookup sExB.propbag "01text" with
  | none => exact absurd hl (by decide)
  | some p =>
      exact ⟨p, rfl,
        property_changed_single_setter_call sExB "01text" "clicked" wBtn p rfl hl⟩

/-- C6: when the descriptor has a class-specific override for the widget's
class whose params omit `"mode"` while the generic params specify one, the
parameters passed to the editor still contain the generic `"mode"`
value. -/
theorem class_override_preserves_generic_mode
    (label : PLabel) (editor : Editor) (wdescr : WidgetDescr)
    (pname : String) (pd : PropDescr) (gps ops : List (String × String))
    (m : String) (ov : Override)
    (hg : pd.params = some gps) (hm : dlookup gps "mode" = some m)
    (hov : dlookup pd.overrides wdescr.classname = some ov)
    (hops : ov.params = some ops) (hnomode : dlookup ops "mode" = none) :
    dlookup (update_editor label editor wdescr pname pd).editor.params "mode" =
      some m := by
  have hph : ("placeholder" : String) ≠ "mode" := by decide
  unfold update_editor selectParams
  simp only [hg, hov, hops, hm, hnomode, Option.isNone_none, if_true]
  by_cases hid : pname = "id" ∧ editor.isNamedID = true
  · simp only [if_pos hid]
    rw [dlookup_dinsert_ne _ _ _ _ hph, dlookup_dinsert_self]
  · simp only [if_neg hid]
    rw [dlookup_dinsert_self]

/-- Witness for C6: `pdText`'s `ttk.Button` override omits `mode`; the
generic `("mode", "normal")` survives into the editor parameters. -/
theorem class_override_preserves_generic_mode_witness :
    pdText.params = some [("mode", "normal")] ∧
    dlookup pdText.overrides "ttk.Button" = some ⟨some [("x", "1")], none, none⟩ ∧
    dlookup (update_editor ⟨"text:", none⟩ ⟨1, "text", false, [], ""⟩ wBtn "text"
      pdText).editor.params "mode" = some "normal" := by
  refine ⟨rfl, by decide, ?_⟩
  exact class_override_preserves_generic_mode ⟨"text:", none⟩
    ⟨1, "text", false, [], ""⟩ wBtn "text" pdText [("mode", "normal")]
    [("x", "1")] "normal" ⟨some [("x", "1")], none, none⟩ rfl (by decide)
    (by decide) rfl (by decide)

/-! ### Structure of a successful `edit` call -/

theorem edit_ok_destruct (gl : GroupLists) (cmap : ClassMap) (s : PEState)
    (w : WidgetDescr) (s' : PEState) (h : edit gl cmap s w = .ok s') :
    ∃ cd reqT bag0 tkT1 bag1 tkT2 bag2 cusT bag3,
      dlookup cmap w.classname = some cd ∧
      editGroup cd w "00" none gl.required s.required_descr s.propbag =
        .ok (reqT, bag0) ∧
      editGroup cd w "01" (some "OPTIONS_STANDARD") gl.standard s.tk_descr bag0 =
        .ok (tkT1, bag1) ∧
      editGroup cd w "02" (some "OPTIONS_SPECIFIC") gl.specific tkT1 bag1 =
        .ok (tkT2, bag2) ∧
      editGroup cd w "03" (some "OPTIONS_CUSTOM") gl.custom s.custom_descr bag2 =
        .ok (cusT, bag3) ∧
      s' = { s with
               propbag := bag3
               required_descr := reqT
               tk_descr := tkT2
               custom_descr := cusT
               _current := some w } := by
  unfold edit at h
  dsimp only at h
  cases hcd : dlookup cmap w.classname with
  | none => rw [hcd] at h; exact absurd h (by simp)
  | some cd =>
    rw [hcd] at h
    dsimp only at h
    cases h0 : editGroup cd w "00" none gl.required s.required_descr s.propbag with
    | error e => rw [h0] at h; exact absurd h (by simp)
    | ok p0 =>
      obtain ⟨reqT, bag0⟩ := p0
      rw [h0] at h
      dsimp only at h
      cases h1 : editGroup cd w "01" (some "OPTIONS_STANDARD") gl.standard
          s.tk_descr bag0 with
      | error e => rw [h1] at h; exact absurd h (by simp)
      | ok p1 =>
        obtain ⟨tkT1, bag1⟩ := p1
        rw [h1] at h
        dsimp only at h
        cases h2 : editGroup cd w "02" (some "OPTIONS_SPECIFIC") gl.specific
            tkT1 bag1 with
        | error e => rw [h2] at h; exact absurd h (by simp)
        | ok p2 =>
          obtain ⟨tkT2, bag2⟩ := p2
          rw [h2] at h
          dsimp only at h
          cases h3 : editGroup cd w "03" (some "OPTIONS_CUSTOM") gl.custom
              s.custom_descr bag2 with
          | error e => rw [h3] at h; exact absurd h (by simp)
          | ok p3 =>
            obtain ⟨cusT, bag3⟩ := p3
            rw [h3] at h
            dsimp only at h
            simp only [Except.ok.injEq] at h
            exact ⟨cd, reqT, bag0, tkT1, bag1, tkT2, bag2, cusT, bag3,
              rfl, h0, h1, h2, h3, h.symm⟩

/-! ### `editGroup` invariants -/

theorem editGroup_shape (cd : ClassDescr) (w : WidgetDescr) (g : String)
    (a : Option String) (names : List String)
    (table' : List (String × PropDescr)) (bag' : List (String × PropPair)) :
    ∀ (table : List (String × PropDescr)) (bag : List (String × PropPair)),
      editGroup cd w g a names table bag = .ok (table', bag') →
      bagShape bag' = bagShape bag := by
  induction names with
  | nil =>
      intro table bag h
      unfold editGroup at h
      simp only [Except.ok.injEq, Prod.mk.injEq] at h
      rw [h.2]
  | cons n rest ih =>
      intro table bag h
      unfold editGroup at h
      cases h1 : dlookup table n with
      | none => rw [h1] at h; exact absurd h (by simp)
      | some pd =>
        rw [h1] at h
        cases h2 : dlookup bag (g ++ n) with
        | none => rw [h2] at h; exact absurd h (by simp)
        | some pair =>
          rw [h2] at h
          dsimp only at h
          by_cases hc : g = "00" ∨ n ∈ getOptions cd a
          · rw [if_pos hc] at h
            refine (ih _ _ h).trans (bagShape_dinsert bag (g ++ n) pair _ h2 ?_)
            have hs := update_editor_editorSig pair.label pair.editor w n pd
            simp [editorSig, hs.1, hs.2.1, hs.2.2]
          · rw [if_neg hc] at h
            exact (ih _ _ h).trans (bagShape_dinsert bag (g ++ n) pair _ h2 rfl)

theorem editGroup_frame (cd : ClassDescr) (w : WidgetDescr) (g : String)
    (a : Option String) (names : List String)
    (table' : List (String × PropDescr)) (bag' : List (String × PropPair))
    (key : String) :
    ∀ (table : List (String × PropDescr)) (bag : List (String × PropPair)),
      editGroup cd w g a names table bag = .ok (table', bag') →
      (∀ n ∈ names, key ≠ g ++ n) →
      dlookup bag' key = dlookup bag key := by
  induction names with
  | nil =>
      intro table bag h _
      unfold editGroup at h
      simp only [Except.ok.injEq, Prod.mk.injEq] at h
      rw [h.2]
  | cons n rest ih =>
      intro table bag h hkey
      have hkn : (g ++ n) ≠ key := fun e => hkey n (by simp) e.symm
      have hkrest : ∀ n' ∈ rest, key ≠ g ++ n' := fun n' hn' =>
        hkey n' (List.mem_cons_of_mem _ hn')
      unfold editGroup at h
      cases h1 : dlookup table n with
      | none => rw [h1] at h; exact absurd h (by simp)
      | some pd =>
        rw [h1] at h
        cases h2 : dlookup bag (g ++ n) with
        | none => rw [h2] at h; exact absurd h (by simp)
        | some pair =>
          rw [h2] at h
          dsimp only at h
          by_cases hc : g = "00" ∨ n ∈ getOptions cd a
          · rw [if_pos hc] at h
            exact (ih _ _ h hkrest).trans (dlookup_dinsert_ne _ _ _ _ hkn)
          · rw [if_neg hc] at h
            exact (ih _ _ h hkrest).trans (dlookup_dinsert_ne _ _ _ _ hkn)

theorem editGroup_vis (cd : ClassDescr) (w : WidgetDescr) (g : String)
    (a : Option String) (names : List String)
    (table' : List (String × PropDescr)) (bag' : List (String × PropPair))
    (name : String) :
    ∀ (table : List (String × PropDescr)) (bag : List (String × PropPair)),
      names.Nodup →
      editGroup cd w g a names table bag = .ok (table', bag') →
      name ∈ names →
      ∃ p, dlookup bag' (g ++ name) = some p ∧
        p.labelVisible = decide (g = "00" ∨ name ∈ getOptions cd a) ∧
        p.editorVisible = decide (g = "00" ∨ name ∈ getOptions cd a) := by
  induction names with
  | nil => intro table bag _ _ hmem; cases hmem
  | cons n rest ih =>
      intro table bag hnd h hmem
      unfold editGroup at h
      cases h1 : dlookup table n with
      | none => rw [h1] at h; exact absurd h (by simp)
      | some pd =>
        rw [h1] at h
        cases h2 : dlookup bag (g ++ n) with
        | none => rw [h2] at h; exact absurd h (by simp)
        | some pair =>
          rw [h2] at h
          dsimp only at h
          rcases List.mem_cons.mp hmem with rfl | hrest
          · have hn : name ∉ rest := (List.nodup_cons.mp hnd).1
            have hkey : ∀ n' ∈ rest, (g ++ name) ≠ g ++ n' := by
              intro n' hn' he
              exact hn (gkey_inj g name n' he ▸ hn')
            by_cases hc : g = "00" ∨ name ∈ getOptions cd a
            · rw [if_pos hc] at h
              have hfr := editGroup_frame cd w g a rest table' bag' (g ++ name)
                _ _ h hkey
              refine ⟨_, hfr.trans (dlookup_dinsert_self _ _ _), ?_, ?_⟩ <;>
                simp [hc]
            · rw [if_neg hc] at h
              have hfr := editGroup_frame cd w g a rest table' bag' (g ++ name)
                _ _ h hkey
              refine ⟨_, hfr.trans (dlookup_dinsert_self _ _ _), ?_, ?_⟩ <;>
                simp [hc]
          · by_cases hc : g = "00" ∨ n ∈ getOptions cd a
            · rw [if_pos hc] at h
              exact ih _ _ (List.nodup_cons.mp hnd).2 h hrest
            · rw [if_neg hc] at h
              exact ih _ _ (List.nodup_cons.mp hnd).2 h hrest

theorem editGroup_error_of_missing (cd : ClassDescr) (w : WidgetDescr)
    (g : String) (a : Option String) (names : List String) (name : String) :
    ∀ (table : List (String × PropDescr)) (bag : List (String × PropPair)),
      name ∈ names →
      dlookup table name = none →
      ∃ e, editGroup cd w g a names table bag = .error e := by
  induction names with
  | nil => intro table bag hmem _; cases hmem
  | cons n rest ih =>
      intro table bag hmem hmiss
      cases h1 : dlookup table n with
      | none => exact ⟨_, by unfold editGroup; rw [h1]⟩
      | some pd =>
        have hne : n ≠ name := by
          intro e
          rw [e, hmiss] at h1
          cases h1
        have hrest : name ∈ rest := by
          rcases List.mem_cons.mp hmem with rfl | hr
          · exact absurd rfl hne
          · exact hr
        cases h2 : dlookup bag (g ++ n) with
        | none => exact ⟨_, by unfold editGroup; rw [h1]; dsimp only; rw [h2]⟩
        | some pair =>
          by_cases hc : g = "00" ∨ n ∈ getOptions cd a
          · have hmiss' :
                dlookup (dinsert table n
                  (update_editor pair.label pair.editor w n pd).propdescr) name =
                  none := by
              rw [dlookup_dinsert_ne _ _ _ _ hne]; exact hmiss
            obtain ⟨e, he⟩ := ih _ (dinsert bag (g ++ n)
              ⟨(update_editor pair.label pair.editor w n pd).label,
               (update_editor pair.label pair.editor w n pd).editor, true, true⟩)
              hrest hmiss'
            exact ⟨e, by
              unfold editGroup
              rw [h1]; dsimp only
              rw [h2]; dsimp only
              rw [if_pos hc]; exact he⟩
          · obtain ⟨e, he⟩ := ih table
              (dinsert bag (g ++ n)
                { pair with labelVisible := false, editorVisible := false })
              hrest hmiss
            exact ⟨e, by
              unfold editGroup
              rw [h1]; dsimp only
              rw [h2]; dsimp only
              rw [if_neg hc]; exact he⟩

theorem bagShape_fst (bag : List (String × PropPair)) :
    (bagShape bag).map Prod.fst = bag.map Prod.fst := by
  simp [bagShape, List.map_map]

theorem length_dinsert_of_absent (d : List (String × α)) (k : String) (v : α)
    (h : dlookup d k = none) : (dinsert d k v).length = d.length + 1 := by
  induction d with
  | nil => rfl
  | cons p rest ih =>
      obtain ⟨k0, v0⟩ := p
      by_cases h0 : k0 = k
      · simp [dlookup, h0] at h
      · simp only [dlookup, if_neg h0] at h
        simp [dinsert, h0, ih h]

/-- C7: the property bag's key set and the identity of every editor (object
identity, bound name, concrete class) are preserved by `edit`, by
`hide_all` and by the `<<PropertyChanged>>` callback: editors are
reconfigured, shown or hidden, never added, removed or replaced. -/
theorem propbag_keys_and_editors_fixed (gl : GroupLists) (cmap : ClassMap)
    (s : PEState) :
    (∀ w s', edit gl cmap s w = .ok s' →
      bagShape s'.propbag = bagShape s.propbag) ∧
    bagShape (hide_all s).propbag = bagShape s.propbag ∧
    (∀ key v s' calls, fire_property_changed s key v = .ok (s', calls) →
      bagShape s'.propbag = bagShape s.propbag) := by
  refine ⟨?_, ?_, ?_⟩
  · intro w s' h
    obtain ⟨cd, reqT, bag0, tkT1, bag1, tkT2, bag2, cusT, bag3,
      hcd, h0, h1, h2, h3, rfl⟩ := edit_ok_destruct gl cmap s w s' h
    exact ((editGroup_shape _ _ _ _ _ _ _ _ _ h3).trans
      ((editGroup_shape _ _ _ _ _ _ _ _ _ h2).trans
        ((editGroup_shape _ _ _ _ _ _ _ _ _ h1).trans
          (editGroup_shape _ _ _ _ _ _ _ _ _ h0))))
  · show bagShape (s.propbag.map fun kp => (kp.1, hidePair kp.2)) =
      bagShape s.propbag
    simp only [bagShape, List.map_map]
    rfl
  · intro key v s' calls h
    unfold fire_property_changed at h
    cases hk : dlookup s.propbag key with
    | none => rw [hk] at h; exact absurd h (by simp)
    | some pair =>
        rw [hk] at h
        dsimp only at h
        cases hc : s._current with
        | none => rw [hc] at h; exact absurd h (by simp)
        | some cur =>
            rw [hc] at h
            dsimp only at h
            simp only [Except.ok.injEq, Prod.mk.injEq] at h
            obtain ⟨h1, -⟩ := h
            rw [← h1]
            exact bagShape_dinsert s.propbag key pair _ hk rfl

/-- Witness for C7: concrete preservation under `edit`, `hide_all` and a
`<<PropertyChanged>>` firing. -/
theorem propbag_keys_and_editors_fixed_witness :
    bagShape sExB.propbag = bagShape sEx0.propbag ∧
    bagShape (hide_all sEx0).propbag = bagShape sEx0.propbag ∧
    (∃ s' calls, fire_property_changed sExB "01text" "z" = .ok (s', calls) ∧
      bagShape s'.propbag = bagShape sExB.propbag) := by
  have h := propbag_keys_and_editors_fixed glEx cmapEx sEx0
  have h2 := propbag_keys_and_editors_fixed glEx cmapEx sExB
  exact ⟨h.1 wBtn sExB rfl, h.2.1, _, _, rfl, h2.2.2 "01text" "z" _ _ rfl⟩

/-- C8: `edit` performs no error handling of its own.  A class name missing
from `CLASS_MAP` raises the lookup failure to the caller, and so does a
missing property-descriptor entry for a name in the required group list. -/
theorem edit_propagates_lookup_failures (gl : GroupLists) (cmap : ClassMap)
    (s : PEState) (w : WidgetDescr) :
    (dlookup cmap w.classname = none →
      edit gl cmap s w = .error "KeyError: CLASS_MAP[wclass]") ∧
    (∀ cd name, dlookup cmap w.classname = some cd → name ∈ gl.required →
      dlookup s.required_descr name = none →
      ∃ e, edit gl cmap s w = .error e) := by
  constructor
  · intro h
    unfold edit
    dsimp only
    rw [h]
  · intro cd name hcd hmem hmiss
    obtain ⟨e, he⟩ := editGroup_error_of_missing cd w "00" none gl.required name
      s.required_descr s.propbag hmem hmiss
    refine ⟨e, ?_⟩
    unfold edit
    dsimp only
    rw [hcd]
    dsimp only
    rw [he]

/-- Witness for C8: an unregistered class raises `KeyError` from
`CLASS_MAP`, and a required property missing from `REQUIRED_OPTIONS` raises
from the descriptor lookup. -/
theorem edit_propagates_lookup_failures_witness :
    edit glEx cmapEx sEx0 ⟨9, "tk.Unknown", "x", fun _ => ""⟩ =
      .error "KeyError: CLASS_MAP[wclass]" ∧
    (∃ e, edit glEx cmapEx { sEx0 with required_descr := [] } wBtn = .error e) := by
  constructor
  · exact (edit_propagates_lookup_failures glEx cmapEx sEx0 _).1 (by decide)
  · exact (edit_propagates_lookup_failures glEx cmapEx
      { sEx0 with required_descr := [] } wBtn).2 ⟨["text"], ["command"], []⟩
      "id" (by decide) (by decide) (by decide)

/-- C9: `hide_all` assigns the attribute `current`, not `_current`, so the
panel's internal current-widget reference survives; a `<<PropertyChanged>>`
event fired after `hide_all` still invokes the property setter of the most
recently edited widget descriptor. -/
theorem hide_all_leaves_stale_current
    (gl : GroupLists) (cmap : ClassMap) (s0 : PEState) (w : WidgetDescr)
    (s1 : PEState) (key v : String) (pair : PropPair)
    (hedit : edit gl cmap s0 w = .ok s1)
    (hk : dlookup (hide_all s1).propbag key = some pair) :
    (hide_all s1).current = none ∧
    (hide_all s1)._current = some w ∧
    ∃ s', fire_property_changed (hide_all s1) key v =
      .ok (s', [⟨w.wid, pair.editor.pname, v⟩]) := by
  obtain ⟨cd, reqT, bag0, tkT1, bag1, tkT2, bag2, cusT, bag3,
    hcd, h0, h1, h2, h3, rfl⟩ := edit_ok_destruct gl cmap s0 w s1 hedit
  refine ⟨rfl, rfl, ?_⟩
  unfold fire_property_changed
  rw [hk]
  exact ⟨_, rfl⟩

/-- Witness for C9: after `edit(wBtn)` then `hide_all`, firing the hidden
`text` editor still calls `wBtn`'s setter. -/
theorem hide_all_leaves_stale_current_witness :
    (hide_all sExB).current = none ∧
    (hide_all sExB)._current = some wBtn ∧
    (∃ pair, dlookup (hide_all sExB).propbag "01text" = some pair ∧
      ∃ s', fire_property_changed (hide_all sExB) "01text" "x" =
        .ok (s', [⟨wBtn.wid, pair.editor.pname, "x"⟩])) := by
  cases hl : dlookup (hide_all sExB).propbag "01text" with
  | none => exact absurd hl (by decide)
  | some p =>
      have h := hide_all_leaves_stale_current glEx cmapEx sEx0 wBtn sExB
        "01text" "x" p rfl hl
      exact ⟨h.1, h.2.1, p, rfl, h.2.2⟩

/-- C1: a successful `edit(wdescr)` call on a registered class shows the
label/editor pair of every required-group property, shows a
standard/specific/custom property exactly when its name appears in the
class's declared list for that group, and hides every other pair; the
registered keys are exactly the construction-time group keys, so no other
registered property stays visible. -/
theorem edit_shows_exactly_declared
    (gl : GroupLists) (cmap : ClassMap) (s : PEState) (w : WidgetDescr)
    (cd : ClassDescr) (s' : PEState)
    (hnd00 : gl.required.Nodup) (hnd01 : gl.standard.Nodup)
    (hnd02 : gl.specific.Nodup) (hnd03 : gl.custom.Nodup)
    (hcd : dlookup cmap w.classname = some cd)
    (hdom : s.propbag.map Prod.fst = groupKeys gl)
    (hedit : edit gl cmap s w = .ok s') :
    (∀ name ∈ gl.required, ∃ p, dlookup s'.propbag ("00" ++ name) = some p ∧
      p.labelVisible = true ∧ p.editorVisible = true) ∧
    (∀ name ∈ gl.standard, ∃ p, dlookup s'.propbag ("01" ++ name) = some p ∧
      p.labelVisible = decide (name ∈ cd.OPTIONS_STANDARD) ∧
      p.editorVisible = decide (name ∈ cd.OPTIONS_STANDARD)) ∧
    (∀ name ∈ gl.specific, ∃ p, dlookup s'.propbag ("02" ++ name) = some p ∧
      p.labelVisible = decide (name ∈ cd.OPTIONS_SPECIFIC) ∧
      p.editorVisible = decide (name ∈ cd.OPTIONS_SPECIFIC)) ∧
    (∀ name ∈ gl.custom, ∃ p, dlookup s'.propbag ("03" ++ name) = some p ∧
      p.labelVisible = decide (name ∈ cd.OPTIONS_CUSTOM) ∧
      p.editorVisible = decide (name ∈ cd.OPTIONS_CUSTOM)) ∧
    s'.propbag.map Prod.fst = groupKeys gl := by
  obtain ⟨cd', reqT, bag0, tkT1, bag1, tkT2, bag2, cusT, bag3,
    hcd', h0, h1, h2, h3, rfl⟩ := edit_ok_destruct gl cmap s w s' hedit
  rw [hcd] at hcd'
  cases hcd'
  have len01 : ("00" : String).data.length = ("01" : String).data.length := by decide
  have len02 : ("00" : String).data.length = ("02" : String).data.length := by decide
  have len03 : ("00" : String).data.length = ("03" : String).data.length := by decide
  have len12 : ("01" : String).data.length = ("02" : String).data.length := by decide
  have len13 : ("01" : String).data.length = ("03" : String).data.length := by decide
  have len23 : ("02" : String).data.length = ("03" : String).data.length := by decide
  refine ⟨?_, ?_, ?_, ?_, ?_⟩
  · intro name hmem
    obtain ⟨p, hp, hv1, hv2⟩ := editGroup_vis cd w "00" none gl.required
      reqT bag0 name s.required_descr s.propbag hnd00 h0 hmem
    have k1 : dlookup bag1 ("00" ++ name) = some p := by
      rw [editGroup_frame cd w "01" (some "OPTIONS_STANDARD") gl.standard
        tkT1 bag1 ("00" ++ name) s.tk_descr bag0 h1
        (fun n _ => gkey_ne_of_code_ne "00" "01" name n len01 (by decide))]
      exact hp
    have k2 : dlookup bag2 ("00" ++ name) = some p := by
      rw [editGroup_frame cd w "02" (some "OPTIONS_SPECIFIC") gl.specific
        tkT2 bag2 ("00" ++ name) tkT1 bag1 h2
        (fun n _ => gkey_ne_of_code_ne "00" "02" name n len02 (by decide))]
      exact k1
    have k3 : dlookup bag3 ("00" ++ name) = some p := by
      rw [editGroup_frame cd w "03" (some "OPTIONS_CUSTOM") gl.custom
        cusT bag3 ("00" ++ name) s.custom_descr bag2 h3
        (fun n _ => gkey_ne_of_code_ne "00" "03" name n len03 (by decide))]
      exact k2
    refine ⟨p, k3, ?_, ?_⟩ <;> simp [hv1, hv2]
  · intro name hmem
    obtain ⟨p, hp, hv1, hv2⟩ := editGroup_vis cd w "01"
      (some "OPTIONS_STANDARD") gl.standard tkT1 bag1 name s.tk_descr bag0
      hnd01 h1 hmem
    have k2 : dlookup bag2 ("01" ++ name) = some p := by
      rw [editGroup_frame cd w "02" (some "OPTIONS_SPECIFIC") gl.specific
        tkT2 bag2 ("01" ++ name) tkT1 bag1 h2
        (fun n _ => gkey_ne_of_code_ne "01" "02" name n len12 (by decide))]
      exact hp
    have k3 : dlookup bag3 ("01" ++ name) = some p := by
      rw [editGroup_frame cd w "03" (some "OPTIONS_CUSTOM") gl.custom
        cusT bag3 ("01" ++ name) s.custom_descr bag2 h3
        (fun n _ => gkey_ne_of_code_ne "01" "03" name n len13 (by decide))]
      exact k2
    refine ⟨p, k3, ?_, ?_⟩ <;>
      simp [hv1, hv2, getOptions, show ("01" : String) ≠ "00" by decide]
  · intro name hmem
    obtain ⟨p, hp, hv1, hv2⟩ := editGroup_vis cd w "02"
      (some "OPTIONS_SPECIFIC") gl.specific tkT2 bag2 name tkT1 bag1
      hnd02 h2 hmem
    have k3 : dlookup bag3 ("02" ++ name) = some p := by
      rw [editGroup_frame cd w "03" (some "OPTIONS_CUSTOM") gl.custom
        cusT bag3 ("02" ++ name) s.custom_descr bag2 h3
        (fun n _ => gkey_ne_of_code_ne "02" "03" name n len23 (by decide))]
      exact hp
    refine ⟨p, k3, ?_, ?_⟩ <;>
      simp [hv1, hv2, getOptions, show ("02" : String) ≠ "00" by decide]
  · intro name hmem
    obtain ⟨p, hp, hv1, hv2⟩ := editGroup_vis cd w "03"
      (some "OPTIONS_CUSTOM") gl.custom cusT bag3 name s.custom_descr bag2
      hnd03 h3 hmem
    refine ⟨p, hp, ?_, ?_⟩ <;>
      simp [hv1, hv2, getOptions, show ("03" : String) ≠ "00" by decide]
  · have sh : bagShape bag3 = bagShape s.propbag :=
      ((editGroup_shape _ _ _ _ _ _ _ _ _ h3).trans
        ((editGroup_shape _ _ _ _ _ _ _ _ _ h2).trans
          ((editGroup_shape _ _ _ _ _ _ _ _ _ h1).trans
            (editGroup_shape _ _ _ _ _ _ _ _ _ h0))))
    have := congrArg (List.map Prod.fst) sh
    rw [bagShape_fst, bagShape_fst] at this
    exact this.trans hdom

/-- Witness for C1: the example panel edited with a `ttk.Button` widget
shows `id` and `text` and hides `width`, `command`'s companion group being
declared, with the key set unchanged. -/
theorem edit_shows_exactly_declared_witness :
    (∀ name ∈ glEx.required, ∃ p, dlookup sExB.propbag ("00" ++ name) = some p ∧
      p.labelVisible = true ∧ p.editorVisible = true) ∧
    (∀ name ∈ glEx.standard, ∃ p, dlookup sExB.propbag ("01" ++ name) = some p ∧
      p.labelVisible =
        decide (name ∈ (⟨["text"], ["command"], []⟩ : ClassDescr).OPTIONS_STANDARD) ∧
      p.editorVisible =
        decide (name ∈ (⟨["text"], ["command"], []⟩ : ClassDescr).OPTIONS_STANDARD)) ∧
    (∀ name ∈ glEx.specific, ∃ p, dlookup sExB.propbag ("02" ++ name) = some p ∧
      p.labelVisible =
        decide (name ∈ (⟨["text"], ["command"], []⟩ : ClassDescr).OPTIONS_SPECIFIC) ∧
      p.editorVisible =
        decide (name ∈ (⟨["text"], ["command"], []⟩ : ClassDescr).OPTIONS_SPECIFIC)) ∧
    (∀ name ∈ glEx.custom, ∃ p, dlookup sExB.propbag ("03" ++ name) = some p ∧
      p.labelVisible =
        decide (name ∈ (⟨["text"], ["command"], []⟩ : ClassDescr).OPTIONS_CUSTOM) ∧
      p.editorVisible =
        decide (name ∈ (⟨["text"], ["command"], []⟩ : ClassDescr).OPTIONS_CUSTOM)) ∧
    sExB.propbag.map Prod.fst = groupKeys glEx :=
  edit_shows_exactly_declared glEx cmapEx sEx0 wBtn ⟨["text"], ["command"], []⟩
    sExB (by decide) (by decide) (by decide) (by decide) (by decide) (by decide)
    rfl

/-- C10: `update_editor` copies the descriptor only shallowly, so inserting
the preserved `"mode"` writes through to the shared params dictionary of
the static property-metadata table: the descriptor after the call carries
the inserted `"mode"` and differs from the original.  Concretely, in the
example configuration the `ttk.Button` override params of `text` gain
`("mode", "normal")` after `edit(wBtn)`, and the mutated entry is still in
the table after the subsequent `edit(wLbl)` call for a different widget. -/
theorem update_editor_mutates_shared_table
    (label : PLabel) (editor : Editor) (wdescr : WidgetDescr)
    (pname : String) (pd : PropDescr) (gps ops : List (String × String))
    (m : String) (ov : Override)
    (hg : pd.params = some gps) (hm : dlookup gps "mode" = some m)
    (hov : dlookup pd.overrides wdescr.classname = some ov)
    (hops : ov.params = some ops) (hnomode : dlookup ops "mode" = none)
    (hnotid : ¬(pname = "id" ∧ editor.isNamedID = true)) :
    ((update_editor label editor wdescr pname pd).propdescr =
      { pd with overrides := (dinsert pd.overrides wdescr.classname
          { ov with params := some (dinsert ops "mode" m) }) } ∧
     (update_editor label editor wdescr pname pd).propdescr ≠ pd) ∧
    (dlookup sExB.tk_descr "text" = some pdTextMut ∧ pdTextMut ≠ pdText ∧
     dlookup sExL.tk_descr "text" = some pdTextMut) := by
  have heq : (update_editor label editor wdescr pname pd).propdescr =
      { pd with overrides := (dinsert pd.overrides wdescr.classname
          { ov with params := some (dinsert ops "mode" m) }) } := by
    unfold update_editor selectParams writeBackParams
    simp only [hg, hov, hops, hm, hnomode, Option.isNone_none, if_true,
      if_neg hnotid]
  refine ⟨⟨heq, ?_⟩, by decide, by decide, by decide⟩
  rw [heq]
  intro he
  have hov' := congrArg (fun x => dlookup x.overrides wdescr.classname) he
  simp only [dlookup_dinsert_self] at hov'
  rw [hov] at hov'
  have hpar := congrArg Override.params (Option.some.injEq _ _ ▸ hov' :
    ({ ov with params := some (dinsert ops "mode" m) } : Override) = ov)
  simp only [hops] at hpar
  have hlist : dinsert ops "mode" m = ops := by
    simpa using hpar
  have := congrArg List.length hlist
  rw [length_dinsert_of_absent ops "mode" m hnomode] at this
  omega

/-- Witness for C10: the `text` descriptor's `ttk.Button` override params
gain the generic `mode` when `update_editor` runs for `wBtn`. -/
theorem update_editor_mutates_shared_table_witness :
    (update_editor ⟨"text:", none⟩ ⟨1, "text", false, [], ""⟩ wBtn "text"
      pdText).propdescr = pdTextMut ∧
    (update_editor ⟨"text:", none⟩ ⟨1, "text", false, [], ""⟩ wBtn "text"
      pdText).propdescr ≠ pdText := by
  have h := update_editor_mutates_shared_table ⟨"text:", none⟩
    ⟨1, "text", false, [], ""⟩ wBtn "text" pdText [("mode", "normal")]
    [("x", "1")] "normal" ⟨some [("x", "1")], none, none⟩ rfl (by decide)
    (by decide) rfl (by decide) (by decide)
  exact ⟨h.1.1.trans (by decide), h.1.2⟩

end PropEd
